import Mathlib

/-!
# ocserv worker seccomp policy (`src/worker-privs.c`)

A shallow embedding of `disable_system_calls`, the function that installs the
seccomp allow-list of an ocserv worker process, together with the properties
of the rule list it assembles, of its error handling and of the order of its
library calls.

The function talks to the outside world only through `sigaction`, `getenv`,
the libseccomp entry points and `oclog`.  The answers of those calls are the
fields of `World`; the calls themselves are recorded, in program order, in a
list of `Event`s that the embedded function returns next to its `int` result.
-/

namespace Ocserv

/-! ## Build configuration -/

/-- The preprocessor symbols `worker-privs.c` tests, and the three header
constants it uses (`EDOM` and `ENOSYS` from `errno.h`, `SIOCGIFMTU` from
`sys/ioctl.h`, as converted to `int` at line 215), whose values the file does
not fix.  The symbols spelled `__NR_x` in C are the fields `NR_x`. -/
structure BuildConfig where
  USE_SECCOMP_TRAP : Bool
  HAVE_CLOCK_GETTIME : Bool
  SYS_clock_gettime64 : Bool
  NR_clock_gettime64 : Bool
  SYS_clock_nanosleep64 : Bool
  NR_clock_nanosleep64 : Bool
  SYS_getrandom : Bool
  NR_getrandom : Bool
  SYS_fcntl64 : Bool
  NR_fcntl64 : Bool
  SYS_fstat64 : Bool
  NR_fstat64 : Bool
  ANYCONNECT_CLIENT_COMPAT : Bool
  EDOM : Int
  ENOSYS : Int
  SIOCGIFMTU : Int
  deriving Repr

/-! ## libseccomp data -/

/-- The filter actions the file uses (`seccomp.h`). -/
inductive scmp_action where
  | SCMP_ACT_TRAP
  | SCMP_ACT_ERRNO (code : Int)
  | SCMP_ACT_ALLOW
  deriving DecidableEq, Repr

/-- Comparison operators of an argument predicate (`enum scmp_compare`). -/
inductive scmp_compare where
  | SCMP_CMP_NE
  | SCMP_CMP_LT
  | SCMP_CMP_LE
  | SCMP_CMP_EQ
  | SCMP_CMP_GE
  | SCMP_CMP_GT
  deriving DecidableEq, Repr

/-- One argument predicate (`struct scmp_arg_cmp`): argument index, operator,
datum. -/
structure scmp_arg_cmp where
  arg : Nat
  op : scmp_compare
  datum_a : Int
  deriving DecidableEq, Repr

/-- The macro `SCMP_A1(op, datum)`: a predicate on argument 1. -/
def SCMP_A1 (op : scmp_compare) (datum : Int) : scmp_arg_cmp :=
  { arg := 1, op := op, datum_a := datum }

/-- A rule as handed to `seccomp_rule_add`: action, syscall (by name, as given
to `SCMP_SYS`), and the argument predicates (the `arg_cnt, ...` tail). -/
structure Rule where
  action : scmp_action
  syscall : String
  args : List scmp_arg_cmp
  deriving DecidableEq, Repr

/-- The macro `_SECCOMP_ERR` (lines 47-48 and 68): the default action of the
filter. -/
def _SECCOMP_ERR (cfg : BuildConfig) : scmp_action :=
  if cfg.USE_SECCOMP_TRAP then scmp_action.SCMP_ACT_TRAP
  else scmp_action.SCMP_ACT_ERRNO cfg.ENOSYS

/-! ## Worker configuration -/

/-- The part of `struct cfg_st` the function reads: `xml_config_file`, a
`char *` that is `NULL` (here `none`) or points to a path. -/
structure cfg_st where
  xml_config_file : Option String
  deriving Repr

/-- The part of `struct perm_cfg_st` the function reads. -/
structure perm_cfg_st where
  config : cfg_st
  deriving Repr

/-- The part of `vhost_cfg_st` the function reads. -/
structure vhost_cfg_st where
  perm_config : perm_cfg_st
  deriving Repr

/-- The part of `struct worker_st` the function reads: the list `ws->vconfig`
of virtual hosts, in list order. -/
structure worker_st where
  vconfig : List vhost_cfg_st
  deriving Repr

/-! ## The outside world and the event trace -/

/-- The answers of the external calls of one invocation: `sigaction`, `getenv`,
`seccomp_init` (`none` is `NULL`, `some c` a context handle), the `n`-th call
of `seccomp_rule_add` (counted from 0), and `seccomp_load`. -/
structure World where
  sigaction : Int
  getenv : String → Option String
  seccomp_init : scmp_action → Option Nat
  seccomp_rule_add : Nat → Int
  seccomp_load : Int

/-- Log priorities used by the file. -/
inductive Priority where
  | LOG_ERR
  | LOG_DEBUG
  deriving DecidableEq, Repr

/-- The external calls the function makes, with their arguments and result. -/
inductive Event where
  | sigaction (ret : Int)
  | seccomp_init (def_action : scmp_action) (ctx : Option Nat)
  | seccomp_rule_add (ctx : Nat) (rule : Rule) (ret : Int)
  | seccomp_load (ctx : Nat) (ret : Int)
  | seccomp_release (ctx : Nat)
  | oclog (prio : Priority) (msg : String)
  deriving DecidableEq, Repr

/-! ## The function -/

/-- The function `set_sigsys_handler` (lines 58-66 with `USE_SECCOMP_TRAP`,
lines 69-72 without): result and calls made. -/
def set_sigsys_handler (cfg : BuildConfig) (w : World) : Int × List Event :=
  if cfg.USE_SECCOMP_TRAP then (w.sigaction, [Event.sigaction w.sigaction])
  else (0, [])

/-- One use of the macro: the syscall name and the `arg_cnt, ...` tail. -/
structure AddSyscall where
  name : String
  args : List scmp_arg_cmp
  deriving DecidableEq, Repr

/-- The body of the loop `list_for_each(ws->vconfig, vhost, list)` of lines
204-210: the macro uses made for the first virtual host that has
`xml_config_file`, after which the loop is left by `break`. -/
def xml_config_syscalls : List vhost_cfg_st → List AddSyscall
  | [] => []
  | vhost :: rest =>
    if vhost.perm_config.config.xml_config_file.isSome then
      [⟨"open", []⟩, ⟨"openat", []⟩]
    else xml_config_syscalls rest

/-- The uses of `ADD_SYSCALL` of lines 106-223 in program order, as selected
by the preprocessor conditions, by `getenv("SOCKET_WRAPPER_DIR")` and by the
virtual-host loop. -/
def add_syscall_uses (cfg : BuildConfig) (w : World) (ws : worker_st) :
    List AddSyscall :=
  [⟨"getcwd", []⟩, ⟨"lstat", []⟩]
  ++ (if (w.getenv "SOCKET_WRAPPER_DIR").isSome then [⟨"readlink", []⟩] else [])
  ++ [⟨"time", []⟩, ⟨"gettimeofday", []⟩]
  ++ (if cfg.HAVE_CLOCK_GETTIME then
        [⟨"clock_gettime", []⟩]
        ++ (if cfg.SYS_clock_gettime64 || cfg.NR_clock_gettime64 then
              [⟨"clock_gettime64", []⟩] else [])
      else [])
  ++ [⟨"clock_nanosleep", []⟩]
  ++ (if cfg.SYS_clock_nanosleep64 || cfg.NR_clock_nanosleep64 then
        [⟨"clock_nanosleep64", []⟩] else [])
  ++ [⟨"nanosleep", []⟩, ⟨"getrusage", []⟩, ⟨"alarm", []⟩, ⟨"setitimer", []⟩,
      ⟨"getpid", []⟩, ⟨"brk", []⟩, ⟨"mmap", []⟩]
  ++ (if cfg.SYS_getrandom || cfg.NR_getrandom then [⟨"getrandom", []⟩] else [])
  ++ [⟨"recvmsg", []⟩, ⟨"sendmsg", []⟩, ⟨"read", []⟩, ⟨"write", []⟩,
      ⟨"writev", []⟩, ⟨"send", []⟩, ⟨"recv", []⟩, ⟨"futex", []⟩,
      ⟨"sendto", []⟩, ⟨"recvfrom", []⟩, ⟨"sigreturn", []⟩,
      ⟨"rt_sigreturn", []⟩, ⟨"sigprocmask", []⟩, ⟨"rt_sigprocmask", []⟩,
      ⟨"poll", []⟩, ⟨"ppoll", []⟩, ⟨"fcntl", []⟩]
  ++ (if cfg.SYS_fcntl64 || cfg.NR_fcntl64 then [⟨"fcntl64", []⟩] else [])
  ++ [⟨"close", []⟩, ⟨"exit", []⟩, ⟨"exit_group", []⟩, ⟨"socket", []⟩,
      ⟨"connect", []⟩, ⟨"openat", []⟩, ⟨"fstat", []⟩, ⟨"stat", []⟩]
  ++ (if cfg.SYS_fstat64 || cfg.NR_fstat64 then [⟨"fstat64", []⟩] else [])
  ++ [⟨"stat64", []⟩, ⟨"newfstatat", []⟩, ⟨"lseek", []⟩,
      ⟨"getsockopt", []⟩, ⟨"setsockopt", []⟩]
  ++ (if cfg.ANYCONNECT_CLIENT_COMPAT then xml_config_syscalls ws.vconfig else [])
  ++ [⟨"ioctl", [SCMP_A1 scmp_compare.SCMP_CMP_EQ cfg.SIOCGIFMTU]⟩]
  ++ [⟨"epoll_wait", []⟩, ⟨"epoll_pwait", []⟩, ⟨"epoll_create1", []⟩,
      ⟨"epoll_ctl", []⟩, ⟨"rt_sigaction", []⟩, ⟨"eventfd2", []⟩]

/-- The rule one use of `ADD_SYSCALL` passes to `seccomp_rule_add` (line 95):
always with action `SCMP_ACT_ALLOW`. -/
def AddSyscall.rule (u : AddSyscall) : Rule :=
  { action := scmp_action.SCMP_ACT_ALLOW, syscall := u.name, args := u.args }

/-- The test of line 97: the result is negative and is not `-EDOM`. -/
def add_failed (cfg : BuildConfig) (ret : Int) : Bool :=
  decide (ret < 0) && decide (ret ≠ -cfg.EDOM)

/-- The macro `ADD_SYSCALL` (lines 94-101) as the `n`-th call of
`seccomp_rule_add`: the calls made, and `some (-1)` when control goes to
`fail` with `ret = -1`, `none` when it falls through. -/
def ADD_SYSCALL (cfg : BuildConfig) (w : World) (ctx : Nat) (n : Nat)
    (u : AddSyscall) : List Event × Option Int :=
  let ret := w.seccomp_rule_add n
  if add_failed cfg ret then
    ([Event.seccomp_rule_add ctx u.rule ret,
      Event.oclog Priority.LOG_DEBUG
        ("could not add " ++ u.name ++ " to seccomp filter: %s")],
     some (-1))
  else ([Event.seccomp_rule_add ctx u.rule ret], none)

/-- The uses of the macro run in order, the first being the `n`-th call of
`seccomp_rule_add`; the run ends at the first `goto fail`. -/
def add_syscalls (cfg : BuildConfig) (w : World) (ctx : Nat) :
    Nat → List AddSyscall → List Event × Option Int
  | _, [] => ([], none)
  | n, u :: rest =>
    match ADD_SYSCALL cfg w ctx n u with
    | (ev, some ret) => (ev, some ret)
    | (ev, none) =>
      let r := add_syscalls cfg w ctx (n + 1) rest
      (ev ++ r.1, r.2)

/-- The function `disable_system_calls` of a `HAVE_LIBSECCOMP` build (lines
76-237): the value returned and the external calls made, in order. -/
def disable_system_calls (cfg : BuildConfig) (w : World) (ws : worker_st) :
    Int × List Event :=
  let h := set_sigsys_handler cfg w
  if h.1 ≠ 0 then
    (-1, h.2 ++ [Event.oclog Priority.LOG_ERR "set_sigsys_handler"])
  else
    match w.seccomp_init (_SECCOMP_ERR cfg) with
    | none =>
      (-1, h.2 ++ [Event.seccomp_init (_SECCOMP_ERR cfg) none,
                   Event.oclog Priority.LOG_DEBUG "could not initialize seccomp"])
    | some ctx =>
      let a := add_syscalls cfg w ctx 0 (add_syscall_uses cfg w ws)
      match a.2 with
      | some ret =>
        (ret, h.2 ++ [Event.seccomp_init (_SECCOMP_ERR cfg) (some ctx)] ++ a.1
              ++ [Event.seccomp_release ctx])
      | none =>
        let ret := w.seccomp_load
        if ret < 0 then
          (-1, h.2 ++ [Event.seccomp_init (_SECCOMP_ERR cfg) (some ctx)] ++ a.1
                ++ [Event.seccomp_load ctx ret,
                    Event.oclog Priority.LOG_DEBUG "could not load seccomp filter",
                    Event.seccomp_release ctx])
        else
          (0, h.2 ++ [Event.seccomp_init (_SECCOMP_ERR cfg) (some ctx)] ++ a.1
                ++ [Event.seccomp_load ctx ret, Event.seccomp_release ctx])

/-- The function `disable_system_calls` of a build without `HAVE_LIBSECCOMP`
(lines 239-242). -/
def disable_system_calls_no_libseccomp (_ws : worker_st) : Int × List Event :=
  (0, [])

/-- The function `disable_system_calls` as selected by `HAVE_LIBSECCOMP`
(line 23). -/
def disable_system_calls_build (HAVE_LIBSECCOMP : Bool) (cfg : BuildConfig)
    (w : World) (ws : worker_st) : Int × List Event :=
  if HAVE_LIBSECCOMP then disable_system_calls cfg w ws
  else disable_system_calls_no_libseccomp ws

/-! ## Reading the trace -/

/-- The rule of a `seccomp_rule_add` call. -/
def Event.rule? : Event → Option Rule
  | Event.seccomp_rule_add _ r _ => some r
  | _ => none

/-- The result of a `seccomp_rule_add` call. -/
def Event.rule_add_ret? : Event → Option Int
  | Event.seccomp_rule_add _ _ ret => some ret
  | _ => none

/-- The rules the invocation inserted: the rules of its `seccomp_rule_add`
calls, in call order. -/
def inserted_rules (trace : List Event) : List Rule :=
  trace.filterMap Event.rule?

/-- The results of the `seccomp_rule_add` calls of the invocation, in call
order. -/
def rule_add_results (trace : List Event) : List Int :=
  trace.filterMap Event.rule_add_ret?

/-- Whether an event is a call of `seccomp_load`. -/
def Event.is_load : Event → Bool
  | Event.seccomp_load _ _ => true
  | _ => false

/-- Whether an event is a call of `seccomp_release`. -/
def Event.is_release : Event → Bool
  | Event.seccomp_release _ => true
  | _ => false

/-- The rule with no argument predicate that allows the named syscall. -/
def allow (name : String) : Rule :=
  { action := scmp_action.SCMP_ACT_ALLOW, syscall := name, args := [] }

/-! ## The filter the rules describe -/

/-- Modelled from the spec: a system call as the filter sees it, its name and
the values of its arguments by index (the filtering facility itself is not
part of `worker-privs.c`). -/
structure SyscallAttempt where
  name : String
  arg : Nat → Int

/-- Modelled from the spec: an argument predicate is "argument index,
comparison operator, expected value"; it holds of a call when the argument at
that index compares so with the expected value. -/
def scmp_arg_cmp.holds (p : scmp_arg_cmp) (c : SyscallAttempt) : Bool :=
  match p.op with
  | scmp_compare.SCMP_CMP_NE => decide (c.arg p.arg ≠ p.datum_a)
  | scmp_compare.SCMP_CMP_LT => decide (c.arg p.arg < p.datum_a)
  | scmp_compare.SCMP_CMP_LE => decide (c.arg p.arg ≤ p.datum_a)
  | scmp_compare.SCMP_CMP_EQ => decide (c.arg p.arg = p.datum_a)
  | scmp_compare.SCMP_CMP_GE => decide (c.arg p.arg ≥ p.datum_a)
  | scmp_compare.SCMP_CMP_GT => decide (c.arg p.arg > p.datum_a)

/-- Modelled from the spec: a rule matches a call of its syscall when all its
argument predicates hold; "a rule with zero predicates matches the syscall
unconditionally regardless of arguments". -/
def Rule.applies (r : Rule) (c : SyscallAttempt) : Bool :=
  r.syscall == c.name && r.args.all (fun p => p.holds c)

/-- Modelled from the spec: the answer of a filter with the given default
action ("default disposition for calls not in the set") and rules: the action
of a rule that matches the call, the default action when none does. -/
def filter_action (dflt : scmp_action) (rules : List Rule) (c : SyscallAttempt) :
    scmp_action :=
  match rules.find? (fun r => r.applies c) with
  | some r => r.action
  | none => dflt

/-! ## Hypotheses on an invocation -/

/-- Every call of `seccomp_rule_add` the uses of the macro can make is
answered with a non-negative value or with `-EDOM`, the two answers that pass
the test of line 97. -/
def insertions_pass (cfg : BuildConfig) (w : World) (ws : worker_st) : Prop :=
  ∀ i, i < (add_syscall_uses cfg w ws).length →
    0 ≤ w.seccomp_rule_add i ∨ w.seccomp_rule_add i = -cfg.EDOM

/-! ## Sample inputs -/

/-- A build with every feature symbol defined, errno-denial, and the Linux
values of the header constants. -/
def cfg_all : BuildConfig :=
  { USE_SECCOMP_TRAP := false, HAVE_CLOCK_GETTIME := true,
    SYS_clock_gettime64 := true, NR_clock_gettime64 := true,
    SYS_clock_nanosleep64 := true, NR_clock_nanosleep64 := true,
    SYS_getrandom := true, NR_getrandom := true,
    SYS_fcntl64 := true, NR_fcntl64 := true,
    SYS_fstat64 := true, NR_fstat64 := true,
    ANYCONNECT_CLIENT_COMPAT := true,
    EDOM := 33, ENOSYS := 38, SIOCGIFMTU := 0x8921 }

/-- A world in which every call succeeds and the environment is empty. -/
def world_ok : World :=
  { sigaction := 0, getenv := fun _ => none, seccomp_init := fun _ => some 1,
    seccomp_rule_add := fun _ => 0, seccomp_load := 0 }

/-- A worker with no virtual host. -/
def ws_empty : worker_st := { vconfig := [] }

/-- A world in which every call succeeds and `SOCKET_WRAPPER_DIR` is set. -/
def world_wrapper : World :=
  { world_ok with
    getenv := fun n => if n = "SOCKET_WRAPPER_DIR" then some "/tmp/sw" else none }

/-- A world in which `seccomp_rule_add` answers `-EDOM` (with `EDOM = 33`) to
its first, its fourth and its last call under `cfg_all` and `ws_empty`, and
succeeds otherwise. -/
def world_edom : World :=
  { world_ok with
    seccomp_rule_add := fun n => if n = 0 ∨ n = 3 ∨ n = 54 then -33 else 0 }

/-- A world in which the fourth call of `seccomp_rule_add` answers `-EINVAL`
(`-22`) and the second `-EDOM`. -/
def world_einval : World :=
  { world_ok with
    seccomp_rule_add := fun n => if n = 3 then -22 else if n = 1 then -33 else 0 }

/-- A virtual host with or without `xml_config_file`. -/
def vhost (xml : Option String) : vhost_cfg_st :=
  { perm_config := { config := { xml_config_file := xml } } }

/-- A worker with three virtual hosts, the second of which has
`xml_config_file`. -/
def ws_xml : worker_st :=
  { vconfig := [vhost none, vhost (some "/etc/ocserv/profile.xml"), vhost none] }

/-- A worker with two virtual hosts that both have `xml_config_file`. -/
def ws_xml2 : worker_st :=
  { vconfig := [vhost (some "/etc/ocserv/a.xml"), vhost (some "/etc/ocserv/b.xml")] }

/-- The build `cfg_all` without `HAVE_CLOCK_GETTIME`. -/
def cfg_no_clock_gettime : BuildConfig :=
  { cfg_all with HAVE_CLOCK_GETTIME := false }

/-- An `ioctl` call with the given operation code as argument 1. -/
def ioctl_call (op : Int) : SyscallAttempt :=
  { name := "ioctl", arg := fun i => if i = 1 then op else 0 }

/-! # Theorems -/

/-! ## Lemmas on the insertion loop -/

theorem add_failed_eq_false_iff (cfg : BuildConfig) (ret : Int) :
    add_failed cfg ret = false ↔ (0 ≤ ret ∨ ret = -cfg.EDOM) := by
  unfold add_failed
  by_cases h1 : ret < 0 <;> by_cases h2 : ret = -cfg.EDOM <;> simp [h1, h2]
  all_goals omega

theorem add_failed_eq_true_iff (cfg : BuildConfig) (ret : Int) :
    add_failed cfg ret = true ↔ (ret < 0 ∧ ret ≠ -cfg.EDOM) := by
  unfold add_failed
  simp

theorem inserted_rules_append (a b : List Event) :
    inserted_rules (a ++ b) = inserted_rules a ++ inserted_rules b := by
  simp [inserted_rules]

theorem rule_add_results_append (a b : List Event) :
    rule_add_results (a ++ b) = rule_add_results a ++ rule_add_results b := by
  simp [rule_add_results]

/-- Every event of the insertion loop is a `seccomp_rule_add` call or a log
line. -/
theorem add_syscalls_events (cfg : BuildConfig) (w : World) (ctx : Nat)
    (l : List AddSyscall) (n : Nat) :
    ∀ e ∈ (add_syscalls cfg w ctx n l).1,
      (∃ r v, e = Event.seccomp_rule_add ctx r v) ∨ (∃ p m, e = Event.oclog p m) := by
  induction l generalizing n with
  | nil => simp [add_syscalls]
  | cons u rest ih =>
    intro e he
    by_cases hf : add_failed cfg (w.seccomp_rule_add n) = true
    · simp [add_syscalls, ADD_SYSCALL, hf] at he
      rcases he with he | he
      · exact Or.inl ⟨_, _, he⟩
      · exact Or.inr ⟨_, _, he⟩
    · simp [add_syscalls, ADD_SYSCALL, hf] at he
      rcases he with he | he
      · exact Or.inl ⟨_, _, he⟩
      · exact ih (n + 1) e he

/-- The rules inserted by the loop are an initial segment of the uses of the
macro. -/
theorem add_syscalls_initial_segment (cfg : BuildConfig) (w : World) (ctx : Nat)
    (l : List AddSyscall) (n : Nat) :
    inserted_rules (add_syscalls cfg w ctx n l).1 <+: l.map AddSyscall.rule := by
  induction l generalizing n with
  | nil => simp [add_syscalls, inserted_rules]
  | cons u rest ih =>
    by_cases hf : add_failed cfg (w.seccomp_rule_add n) = true
    · simp [add_syscalls, ADD_SYSCALL, hf, inserted_rules, Event.rule?]
    · have h := ih (n + 1)
      simp [add_syscalls, ADD_SYSCALL, hf, inserted_rules, Event.rule?] at h ⊢
      exact h

/-- When no insertion fails the loop falls through, having inserted every
rule. -/
theorem add_syscalls_pass (cfg : BuildConfig) (w : World) (ctx : Nat)
    (l : List AddSyscall) (n : Nat)
    (h : ∀ i, i < l.length → add_failed cfg (w.seccomp_rule_add (n + i)) = false) :
    (add_syscalls cfg w ctx n l).2 = none ∧
    inserted_rules (add_syscalls cfg w ctx n l).1 = l.map AddSyscall.rule ∧
    rule_add_results (add_syscalls cfg w ctx n l).1
      = (List.range l.length).map (fun i => w.seccomp_rule_add (n + i)) := by
  induction l generalizing n with
  | nil => simp [add_syscalls, inserted_rules, rule_add_results]
  | cons u rest ih =>
    have h0 : add_failed cfg (w.seccomp_rule_add n) = false := by
      simpa using h 0 (by simp)
    have hr := ih (n + 1) (fun i hi => by
      have := h (i + 1) (by simpa using hi)
      simpa [Nat.add_assoc, Nat.add_comm 1 i] using this)
    obtain ⟨h1, h2, h3⟩ := hr
    refine ⟨?_, ?_, ?_⟩
    · simp [add_syscalls, ADD_SYSCALL, h0, h1]
    · simp only [inserted_rules] at h2
      simp [add_syscalls, ADD_SYSCALL, h0, inserted_rules, Event.rule?, h2]
    · simp only [rule_add_results] at h3
      simp [add_syscalls, ADD_SYSCALL, h0, rule_add_results, Event.rule_add_ret?, h3,
        List.range_succ_eq_map, Nat.add_assoc, Nat.add_comm 1]

/-- When the first failing insertion is the `k`-th of the loop, the loop ends
there with `ret = -1`. -/
theorem add_syscalls_fail (cfg : BuildConfig) (w : World) (ctx : Nat)
    (l : List AddSyscall) (n k : Nat) (hk : k < l.length)
    (hpass : ∀ i, i < k → add_failed cfg (w.seccomp_rule_add (n + i)) = false)
    (hfail : add_failed cfg (w.seccomp_rule_add (n + k)) = true) :
    (add_syscalls cfg w ctx n l).2 = some (-1) ∧
    inserted_rules (add_syscalls cfg w ctx n l).1 = (l.take (k + 1)).map AddSyscall.rule ∧
    rule_add_results (add_syscalls cfg w ctx n l).1
      = (List.range (k + 1)).map (fun i => w.seccomp_rule_add (n + i)) := by
  induction l generalizing n k with
  | nil => simp at hk
  | cons u rest ih =>
    cases k with
    | zero =>
      have hf : add_failed cfg (w.seccomp_rule_add n) = true := by simpa using hfail
      have hr1 : List.range 1 = [0] := rfl
      simp [add_syscalls, ADD_SYSCALL, hf, inserted_rules, rule_add_results,
        Event.rule?, Event.rule_add_ret?, hr1]
    | succ k =>
      have h0 : add_failed cfg (w.seccomp_rule_add n) = false := by
        simpa using hpass 0 (by simp)
      have hr := ih (n + 1) k (by simpa using hk)
        (fun i hi => by
          have := hpass (i + 1) (by omega)
          simpa [Nat.add_assoc, Nat.add_comm 1 i] using this)
        (by simpa [Nat.add_assoc, Nat.add_comm 1 k] using hfail)
      obtain ⟨h1, h2, h3⟩ := hr
      refine ⟨?_, ?_, ?_⟩
      · simp [add_syscalls, ADD_SYSCALL, h0, h1]
      · simp only [inserted_rules] at h2
        simp [add_syscalls, ADD_SYSCALL, h0, inserted_rules, Event.rule?, h2]
      · simp only [rule_add_results] at h3
        simp [add_syscalls, ADD_SYSCALL, h0, rule_add_results, Event.rule_add_ret?, h3,
          List.range_succ_eq_map (k + 1), Nat.add_assoc, Nat.add_comm 1]

/-- The loop goes to `fail` only with `ret = -1`, after an insertion whose
result failed the test; when it falls through no result failed it. -/
theorem add_syscalls_outcome (cfg : BuildConfig) (w : World) (ctx : Nat)
    (l : List AddSyscall) (n : Nat) :
    ((add_syscalls cfg w ctx n l).2 = none ∧
      ∀ v ∈ rule_add_results (add_syscalls cfg w ctx n l).1, add_failed cfg v = false) ∨
    ((add_syscalls cfg w ctx n l).2 = some (-1) ∧
      ∃ v ∈ rule_add_results (add_syscalls cfg w ctx n l).1, add_failed cfg v = true) := by
  induction l generalizing n with
  | nil => simp [add_syscalls, rule_add_results]
  | cons u rest ih =>
    by_cases hf : add_failed cfg (w.seccomp_rule_add n) = true
    · right
      simp [add_syscalls, ADD_SYSCALL, hf, rule_add_results, Event.rule_add_ret?]
    · have hf0 : add_failed cfg (w.seccomp_rule_add n) = false := by simpa using hf
      rcases ih (n + 1) with ⟨h1, h2⟩ | ⟨h1, v, hv, hv2⟩
      · left
        refine ⟨by simp [add_syscalls, ADD_SYSCALL, hf0, h1], ?_⟩
        intro v hv
        simp only [rule_add_results] at h2
        simp [add_syscalls, ADD_SYSCALL, hf0, rule_add_results, Event.rule_add_ret?] at hv
        rcases hv with hv | hv
        · rw [hv]; exact hf0
        · exact h2 v (by simpa using hv)
      · right
        refine ⟨by simp [add_syscalls, ADD_SYSCALL, hf0, h1], v, ?_, hv2⟩
        simp only [rule_add_results] at hv
        simp [add_syscalls, ADD_SYSCALL, hf0, rule_add_results, Event.rule_add_ret?]
        right
        simpa using hv

/-! ## Lemmas on the whole invocation -/

theorem add_syscalls_no_load (cfg : BuildConfig) (w : World) (ctx : Nat)
    (l : List AddSyscall) (n : Nat) :
    (add_syscalls cfg w ctx n l).1.filter Event.is_load = [] := by
  rw [List.filter_eq_nil_iff]
  intro e he
  rcases add_syscalls_events cfg w ctx l n e he with ⟨r, v, h⟩ | ⟨p, m, h⟩ <;>
    simp [h, Event.is_load]

theorem add_syscalls_no_release (cfg : BuildConfig) (w : World) (ctx : Nat)
    (l : List AddSyscall) (n : Nat) :
    (add_syscalls cfg w ctx n l).1.filter Event.is_release = [] := by
  rw [List.filter_eq_nil_iff]
  intro e he
  rcases add_syscalls_events cfg w ctx l n e he with ⟨r, v, h⟩ | ⟨p, m, h⟩ <;>
    simp [h, Event.is_release]

theorem set_sigsys_handler_rules (cfg : BuildConfig) (w : World) :
    inserted_rules (set_sigsys_handler cfg w).2 = [] ∧
    rule_add_results (set_sigsys_handler cfg w).2 = [] ∧
    (set_sigsys_handler cfg w).2.filter Event.is_load = [] ∧
    (set_sigsys_handler cfg w).2.filter Event.is_release = [] := by
  unfold set_sigsys_handler
  split <;>
    simp [inserted_rules, rule_add_results, Event.rule?, Event.rule_add_ret?,
      Event.is_load, Event.is_release]

/-- The trace of an invocation whose handler install fails. -/
theorem disable_system_calls_handler_failed (cfg : BuildConfig) (w : World)
    (ws : worker_st) (hh : (set_sigsys_handler cfg w).1 ≠ 0) :
    disable_system_calls cfg w ws
      = (-1, (set_sigsys_handler cfg w).2
              ++ [Event.oclog Priority.LOG_ERR "set_sigsys_handler"]) := by
  simp [disable_system_calls, hh]

/-- The trace of an invocation in which `seccomp_init` returns `NULL`. -/
theorem disable_system_calls_init_failed (cfg : BuildConfig) (w : World)
    (ws : worker_st) (hh : (set_sigsys_handler cfg w).1 = 0)
    (hi : w.seccomp_init (_SECCOMP_ERR cfg) = none) :
    disable_system_calls cfg w ws
      = (-1, (set_sigsys_handler cfg w).2
              ++ [Event.seccomp_init (_SECCOMP_ERR cfg) none,
                  Event.oclog Priority.LOG_DEBUG "could not initialize seccomp"]) := by
  simp [disable_system_calls, hh, hi]

/-- The trace of an invocation in which an insertion goes to `fail`. -/
theorem disable_system_calls_add_failed (cfg : BuildConfig) (w : World)
    (ws : worker_st) (ctx : Nat) (ret : Int)
    (hh : (set_sigsys_handler cfg w).1 = 0)
    (hi : w.seccomp_init (_SECCOMP_ERR cfg) = some ctx)
    (ha : (add_syscalls cfg w ctx 0 (add_syscall_uses cfg w ws)).2 = some ret) :
    disable_system_calls cfg w ws
      = (ret, (set_sigsys_handler cfg w).2
              ++ [Event.seccomp_init (_SECCOMP_ERR cfg) (some ctx)]
              ++ (add_syscalls cfg w ctx 0 (add_syscall_uses cfg w ws)).1
              ++ [Event.seccomp_release ctx]) := by
  simp [disable_system_calls, hh, hi, ha]

/-- The trace of an invocation that reaches `seccomp_load`. -/
theorem disable_system_calls_loaded (cfg : BuildConfig) (w : World)
    (ws : worker_st) (ctx : Nat)
    (hh : (set_sigsys_handler cfg w).1 = 0)
    (hi : w.seccomp_init (_SECCOMP_ERR cfg) = some ctx)
    (ha : (add_syscalls cfg w ctx 0 (add_syscall_uses cfg w ws)).2 = none) :
    disable_system_calls cfg w ws
      = (if w.seccomp_load < 0 then -1 else 0,
         (set_sigsys_handler cfg w).2
          ++ [Event.seccomp_init (_SECCOMP_ERR cfg) (some ctx)]
          ++ (add_syscalls cfg w ctx 0 (add_syscall_uses cfg w ws)).1
          ++ [Event.seccomp_load ctx w.seccomp_load]
          ++ (if w.seccomp_load < 0 then
                [Event.oclog Priority.LOG_DEBUG "could not load seccomp filter"]
              else [])
          ++ [Event.seccomp_release ctx]) := by
  by_cases hl : w.seccomp_load < 0 <;> simp [disable_system_calls, hh, hi, ha, hl]

/-- The four ways an invocation can go. -/
theorem disable_system_calls_cases (cfg : BuildConfig) (w : World) (ws : worker_st) :
    (set_sigsys_handler cfg w).1 ≠ 0 ∨
    ((set_sigsys_handler cfg w).1 = 0 ∧ w.seccomp_init (_SECCOMP_ERR cfg) = none) ∨
    (∃ ctx, (set_sigsys_handler cfg w).1 = 0 ∧
      w.seccomp_init (_SECCOMP_ERR cfg) = some ctx ∧
      (add_syscalls cfg w ctx 0 (add_syscall_uses cfg w ws)).2 = some (-1) ∧
      ∃ v ∈ rule_add_results (add_syscalls cfg w ctx 0 (add_syscall_uses cfg w ws)).1,
        add_failed cfg v = true) ∨
    (∃ ctx, (set_sigsys_handler cfg w).1 = 0 ∧
      w.seccomp_init (_SECCOMP_ERR cfg) = some ctx ∧
      (add_syscalls cfg w ctx 0 (add_syscall_uses cfg w ws)).2 = none ∧
      ∀ v ∈ rule_add_results (add_syscalls cfg w ctx 0 (add_syscall_uses cfg w ws)).1,
        add_failed cfg v = false) := by
  by_cases hh : (set_sigsys_handler cfg w).1 = 0
  · cases hi : w.seccomp_init (_SECCOMP_ERR cfg) with
    | none => exact Or.inr (Or.inl ⟨hh, rfl⟩)
    | some ctx =>
      rcases add_syscalls_outcome cfg w ctx (add_syscall_uses cfg w ws) 0 with ⟨h1, h2⟩ | ⟨h1, h2⟩
      · exact Or.inr (Or.inr (Or.inr ⟨ctx, hh, rfl, h1, h2⟩))
      · exact Or.inr (Or.inr (Or.inl ⟨ctx, hh, rfl, h1, h2⟩))
  · exact Or.inl hh

/-- The rules an invocation inserts are, whatever the library answers, an
initial segment of the uses of the macro. -/
theorem disable_system_calls_initial_segment (cfg : BuildConfig) (w : World) (ws : worker_st) :
    inserted_rules (disable_system_calls cfg w ws).2
      <+: (add_syscall_uses cfg w ws).map AddSyscall.rule := by
  have hs := (set_sigsys_handler_rules cfg w).1
  rcases disable_system_calls_cases cfg w ws with hh | ⟨hh, hi⟩ | ⟨ctx, hh, hi, ha, _⟩ |
      ⟨ctx, hh, hi, ha, _⟩
  · rw [disable_system_calls_handler_failed cfg w ws hh]
    simp [inserted_rules_append, hs]
    simp [inserted_rules, Event.rule?]
  · rw [disable_system_calls_init_failed cfg w ws hh hi]
    simp [inserted_rules_append, hs]
    simp [inserted_rules, Event.rule?]
  · rw [disable_system_calls_add_failed cfg w ws ctx _ hh hi ha]
    have hp := add_syscalls_initial_segment cfg w ctx (add_syscall_uses cfg w ws) 0
    simp only [inserted_rules_append, hs]
    simpa [inserted_rules, Event.rule?] using hp
  · rw [disable_system_calls_loaded cfg w ws ctx hh hi ha]
    have hp := add_syscalls_initial_segment cfg w ctx (add_syscall_uses cfg w ws) 0
    simp only [inserted_rules_append, hs]
    by_cases hl : w.seccomp_load < 0 <;>
      simpa [inserted_rules, Event.rule?, hl] using hp

/-- When the handler install and `seccomp_init` succeed and no insertion
fails, every use of the macro inserts its rule and `seccomp_load` decides the
result. -/
theorem disable_system_calls_pass (cfg : BuildConfig) (w : World) (ws : worker_st)
    (ctx : Nat) (hh : (set_sigsys_handler cfg w).1 = 0)
    (hi : w.seccomp_init (_SECCOMP_ERR cfg) = some ctx)
    (hp : ∀ i, i < (add_syscall_uses cfg w ws).length →
      add_failed cfg (w.seccomp_rule_add i) = false) :
    (disable_system_calls cfg w ws).1 = (if w.seccomp_load < 0 then -1 else 0) ∧
    inserted_rules (disable_system_calls cfg w ws).2
      = (add_syscall_uses cfg w ws).map AddSyscall.rule ∧
    (disable_system_calls cfg w ws).2.filter Event.is_load
      = [Event.seccomp_load ctx w.seccomp_load] ∧
    rule_add_results (disable_system_calls cfg w ws).2
      = (List.range (add_syscall_uses cfg w ws).length).map w.seccomp_rule_add := by
  have hs := set_sigsys_handler_rules cfg w
  have ha := add_syscalls_pass cfg w ctx (add_syscall_uses cfg w ws) 0
    (fun i hi => by simpa using hp i hi)
  have hnl := add_syscalls_no_load cfg w ctx (add_syscall_uses cfg w ws) 0
  rw [disable_system_calls_loaded cfg w ws ctx hh hi ha.1]
  refine ⟨rfl, ?_, ?_, ?_⟩
  · simp only [inserted_rules_append, hs.1, ha.2.1]
    by_cases hl : w.seccomp_load < 0 <;> simp [inserted_rules, Event.rule?, hl]
  · simp only [List.filter_append, hs.2.2.1, hnl]
    by_cases hl : w.seccomp_load < 0 <;> simp [Event.is_load, hl]
  · simp only [rule_add_results_append, hs.2.1, ha.2.2]
    by_cases hl : w.seccomp_load < 0 <;>
      simp [rule_add_results, Event.rule_add_ret?, hl]

/-- When the handler install and `seccomp_init` succeed and the first failing
insertion is the `k`-th, the invocation ends there: no later insertion, no
`seccomp_load`, result `-1`. -/
theorem disable_system_calls_fail_at (cfg : BuildConfig) (w : World) (ws : worker_st)
    (ctx k : Nat) (hh : (set_sigsys_handler cfg w).1 = 0)
    (hi : w.seccomp_init (_SECCOMP_ERR cfg) = some ctx)
    (hk : k < (add_syscall_uses cfg w ws).length)
    (hpass : ∀ i, i < k → add_failed cfg (w.seccomp_rule_add i) = false)
    (hfail : add_failed cfg (w.seccomp_rule_add k) = true) :
    (disable_system_calls cfg w ws).1 = -1 ∧
    inserted_rules (disable_system_calls cfg w ws).2
      = ((add_syscall_uses cfg w ws).take (k + 1)).map AddSyscall.rule ∧
    rule_add_results (disable_system_calls cfg w ws).2
      = (List.range (k + 1)).map w.seccomp_rule_add ∧
    (disable_system_calls cfg w ws).2.filter Event.is_load = [] := by
  have hs := set_sigsys_handler_rules cfg w
  have ha := add_syscalls_fail cfg w ctx (add_syscall_uses cfg w ws) 0 k hk
    (fun i hi => by simpa using hpass i hi) (by simpa using hfail)
  have hnl := add_syscalls_no_load cfg w ctx (add_syscall_uses cfg w ws) 0
  rw [disable_system_calls_add_failed cfg w ws ctx (-1) hh hi ha.1]
  refine ⟨rfl, ?_, ?_, ?_⟩
  · simp only [inserted_rules_append, hs.1, ha.2.1]
    simp [inserted_rules, Event.rule?]
  · simp only [rule_add_results_append, hs.2.1, ha.2.2]
    simp [rule_add_results, Event.rule_add_ret?]
  · simp only [List.filter_append, hs.2.2.1, hnl]
    simp [Event.is_load]

/-! ## Lemmas on the uses of the macro -/

theorem filter_ite_nil {α : Type} (p : α → Bool) (c : Prop) [Decidable c] (l : List α) :
    (if c then l else []).filter p = if c then l.filter p else [] := by
  split <;> simp

theorem xml_config_syscalls_none (l : List vhost_cfg_st)
    (h : ∀ v ∈ l, v.perm_config.config.xml_config_file = none) :
    xml_config_syscalls l = [] := by
  induction l with
  | nil => rfl
  | cons v rest ih =>
    have hv : v.perm_config.config.xml_config_file = none := h v (by simp)
    simp only [xml_config_syscalls, hv, Option.isSome_none, Bool.false_eq_true, if_false]
    exact ih (fun x hx => h x (by simp [hx]))

theorem xml_config_syscalls_some (l : List vhost_cfg_st)
    (h : ∃ v ∈ l, v.perm_config.config.xml_config_file ≠ none) :
    xml_config_syscalls l = [⟨"open", []⟩, ⟨"openat", []⟩] := by
  induction l with
  | nil => simp at h
  | cons v rest ih =>
    cases hv : v.perm_config.config.xml_config_file with
    | some p => simp [xml_config_syscalls, hv]
    | none =>
      simp only [xml_config_syscalls, hv, Option.isSome_none, Bool.false_eq_true, if_false]
      apply ih
      obtain ⟨x, hx, hx2⟩ := h
      simp only [List.mem_cons] at hx
      rcases hx with hx | hx
      · subst hx; exact absurd hv hx2
      · exact ⟨x, hx, hx2⟩

theorem xml_config_syscalls_cases (l : List vhost_cfg_st) :
    xml_config_syscalls l = [] ∨ xml_config_syscalls l = [⟨"open", []⟩, ⟨"openat", []⟩] := by
  by_cases h : ∃ v ∈ l, v.perm_config.config.xml_config_file ≠ none
  · exact Or.inr (xml_config_syscalls_some l h)
  · refine Or.inl (xml_config_syscalls_none l (fun v hv => ?_))
    by_contra hc
    exact h ⟨v, hv, hc⟩

/-- The only use of the macro for `ioctl` is the one of line 215. -/
theorem add_syscall_uses_ioctl (cfg : BuildConfig) (w : World) (ws : worker_st) :
    (add_syscall_uses cfg w ws).filter (fun u => u.name == "ioctl")
      = [⟨"ioctl", [SCMP_A1 scmp_compare.SCMP_CMP_EQ cfg.SIOCGIFMTU]⟩] := by
  rcases xml_config_syscalls_cases ws.vconfig with hx | hx <;>
    simp [add_syscall_uses, hx, List.filter_append, filter_ite_nil, List.filter_cons]

/-- No use of the macro names `mkdir` or `mkdirat`. -/
theorem add_syscall_uses_mkdir (cfg : BuildConfig) (w : World) (ws : worker_st) :
    (add_syscall_uses cfg w ws).filter
      (fun u => u.name == "mkdir" || u.name == "mkdirat") = [] := by
  rcases xml_config_syscalls_cases ws.vconfig with hx | hx <;>
    simp [add_syscall_uses, hx, List.filter_append, filter_ite_nil, List.filter_cons]

/-- Without `SOCKET_WRAPPER_DIR` no use of the macro names `readlink`. -/
theorem add_syscall_uses_readlink (cfg : BuildConfig) (w : World) (ws : worker_st)
    (h : w.getenv "SOCKET_WRAPPER_DIR" = none) :
    (add_syscall_uses cfg w ws).filter (fun u => u.name == "readlink") = [] := by
  rcases xml_config_syscalls_cases ws.vconfig with hx | hx <;>
    simp [add_syscall_uses, hx, h, List.filter_append, filter_ite_nil, List.filter_cons]

/-- Without the compatibility code, or with no virtual host that has
`xml_config_file`, no use of the macro names `open`, and the only one that
names `openat` is that of line 188. -/
theorem add_syscall_uses_open (cfg : BuildConfig) (w : World) (ws : worker_st)
    (h : cfg.ANYCONNECT_CLIENT_COMPAT = false ∨
      ∀ v ∈ ws.vconfig, v.perm_config.config.xml_config_file = none) :
    (add_syscall_uses cfg w ws).filter (fun u => u.name == "open") = [] ∧
    (add_syscall_uses cfg w ws).filter (fun u => u.name == "openat")
      = [⟨"openat", []⟩] := by
  rcases h with h | h
  · constructor <;>
      simp [add_syscall_uses, h, List.filter_append, filter_ite_nil, List.filter_cons]
  · have hx := xml_config_syscalls_none ws.vconfig h
    constructor <;>
      simp [add_syscall_uses, hx, List.filter_append, filter_ite_nil, List.filter_cons]

/-- With the compatibility code and a virtual host that has `xml_config_file`,
the uses of the macro for `open` and `openat` are that of line 188 and those
of lines 206-207. -/
theorem add_syscall_uses_open_xml (cfg : BuildConfig) (w : World) (ws : worker_st)
    (hc : cfg.ANYCONNECT_CLIENT_COMPAT = true)
    (hx : ∃ v ∈ ws.vconfig, v.perm_config.config.xml_config_file ≠ none) :
    (add_syscall_uses cfg w ws).filter (fun u => u.name == "open" || u.name == "openat")
      = [⟨"openat", []⟩, ⟨"open", []⟩, ⟨"openat", []⟩] := by
  have hx2 := xml_config_syscalls_some ws.vconfig hx
  simp [add_syscall_uses, hx2, hc, List.filter_append, filter_ite_nil, List.filter_cons]

/-- The uses of the macro with and without `SOCKET_WRAPPER_DIR` differ by the
`readlink` of line 112. -/
theorem add_syscall_uses_socket_wrapper (cfg : BuildConfig) (ws : worker_st)
    (w1 w2 : World) (h1 : w1.getenv "SOCKET_WRAPPER_DIR" ≠ none)
    (h2 : w2.getenv "SOCKET_WRAPPER_DIR" = none) :
    add_syscall_uses cfg w1 ws
      = [⟨"getcwd", []⟩, ⟨"lstat", []⟩] ++ ⟨"readlink", []⟩ ::
          (add_syscall_uses cfg w2 ws).drop 2 ∧
    add_syscall_uses cfg w2 ws
      = [⟨"getcwd", []⟩, ⟨"lstat", []⟩] ++ (add_syscall_uses cfg w2 ws).drop 2 := by
  have h1s : (w1.getenv "SOCKET_WRAPPER_DIR").isSome = true := by
    cases h : w1.getenv "SOCKET_WRAPPER_DIR" with
    | none => exact absurd h h1
    | some p => rfl
  constructor
  · simp [add_syscall_uses, h1s, h2]
  · simp [add_syscall_uses, h2]

/-- The uses of the macro depend on the virtual hosts only through whether one
has `xml_config_file`. -/
theorem add_syscall_uses_vhosts (cfg : BuildConfig) (w : World) (ws ws2 : worker_st)
    (h : (∃ v ∈ ws.vconfig, v.perm_config.config.xml_config_file ≠ none) ↔
      (∃ v ∈ ws2.vconfig, v.perm_config.config.xml_config_file ≠ none)) :
    add_syscall_uses cfg w ws2 = add_syscall_uses cfg w ws := by
  have hx : xml_config_syscalls ws2.vconfig = xml_config_syscalls ws.vconfig := by
    by_cases h1 : ∃ v ∈ ws.vconfig, v.perm_config.config.xml_config_file ≠ none
    · rw [xml_config_syscalls_some _ h1, xml_config_syscalls_some _ (h.mp h1)]
    · have h2 : ¬ ∃ v ∈ ws2.vconfig, v.perm_config.config.xml_config_file ≠ none :=
        fun hc => h1 (h.mpr hc)
      rw [xml_config_syscalls_none ws.vconfig (fun v hv => by
            by_contra hc; exact h1 ⟨v, hv, hc⟩),
          xml_config_syscalls_none ws2.vconfig (fun v hv => by
            by_contra hc; exact h2 ⟨v, hv, hc⟩)]
  simp only [add_syscall_uses, hx]

/-- The rules of the uses selected by a test on the name. -/
theorem filter_map_rule (l : List AddSyscall) (p : String → Bool) :
    (l.map AddSyscall.rule).filter (fun r => p r.syscall)
      = (l.filter (fun u => p u.name)).map AddSyscall.rule := by
  induction l with
  | nil => rfl
  | cons u rest ih =>
    by_cases hu : p u.name = true <;>
      simp [List.filter_cons, AddSyscall.rule, hu] at ih ⊢ <;> exact ih

/-- An inserted rule is the rule of a use of the macro. -/
theorem inserted_rule_of_use (cfg : BuildConfig) (w : World) (ws : worker_st) (r : Rule)
    (hr : r ∈ inserted_rules (disable_system_calls cfg w ws).2) :
    ∃ u ∈ add_syscall_uses cfg w ws, r = u.rule := by
  have h := (disable_system_calls_initial_segment cfg w ws).mem hr
  rw [List.mem_map] at h
  obtain ⟨u, hu, hur⟩ := h
  exact ⟨u, hu, hur.symm⟩

theorem insertions_pass_add_failed (cfg : BuildConfig) (w : World) (ws : worker_st)
    (hp : insertions_pass cfg w ws) :
    ∀ i, i < (add_syscall_uses cfg w ws).length →
      add_failed cfg (w.seccomp_rule_add i) = false :=
  fun i hi => (add_failed_eq_false_iff cfg _).mpr (hp i hi)

theorem insertions_pass_world_ok (cfg : BuildConfig) (ws : worker_st) :
    insertions_pass cfg world_ok ws :=
  fun _ _ => Or.inl (le_refl _)

theorem insertions_pass_world_wrapper (cfg : BuildConfig) (ws : worker_st) :
    insertions_pass cfg world_wrapper ws :=
  fun _ _ => Or.inl (le_refl _)

/-! ## The conditional rules -/

/-- C1, as stated, fails: in a build with the compatibility code, with no
virtual host at all and every call succeeding, the rules inserted contain the
`openat` rule (inserted unconditionally at line 188). -/
theorem openat_inserted_without_xml_config :
    (∀ v ∈ ws_empty.vconfig, v.perm_config.config.xml_config_file = none) ∧
    (disable_system_calls cfg_all world_ok ws_empty).1 = 0 ∧
    allow "openat" ∈ inserted_rules (disable_system_calls cfg_all world_ok ws_empty).2 := by
  refine ⟨by simp [ws_empty], ?_, ?_⟩
  · decide
  · decide

/-- C1 (amended): whenever the build lacks `ANYCONNECT_CLIENT_COMPAT` or no
virtual host of `ws->vconfig` has `xml_config_file` set, the rules that
`disable_system_calls` inserts contain, whatever the library answers, no rule
for `open` and at most one rule for `openat`; when the handler install and
`seccomp_init` succeed and every insertion passes, that one `openat` rule (the
unconditional one of line 188) is present. -/
theorem open_rules_without_xml_config (cfg : BuildConfig) (w : World) (ws : worker_st)
    (h : cfg.ANYCONNECT_CLIENT_COMPAT = false ∨
      ∀ v ∈ ws.vconfig, v.perm_config.config.xml_config_file = none) :
    (∀ r ∈ inserted_rules (disable_system_calls cfg w ws).2, r.syscall ≠ "open") ∧
    ((inserted_rules (disable_system_calls cfg w ws).2).filter
      (fun r => r.syscall == "openat")).length ≤ 1 ∧
    (∀ ctx, (set_sigsys_handler cfg w).1 = 0 →
      w.seccomp_init (_SECCOMP_ERR cfg) = some ctx → insertions_pass cfg w ws →
      (inserted_rules (disable_system_calls cfg w ws).2).filter
        (fun r => r.syscall == "openat") = [allow "openat"]) := by
  obtain ⟨ho, hoa⟩ := add_syscall_uses_open cfg w ws h
  have hmap : ((add_syscall_uses cfg w ws).map AddSyscall.rule).filter
      (fun r => r.syscall == "openat") = [allow "openat"] := by
    rw [filter_map_rule (add_syscall_uses cfg w ws) (fun s => s == "openat"), hoa]
    rfl
  refine ⟨?_, ?_, ?_⟩
  · intro r hr hro
    obtain ⟨u, hu, hur⟩ := inserted_rule_of_use cfg w ws r hr
    have hmem : u ∈ (add_syscall_uses cfg w ws).filter (fun u => u.name == "open") := by
      rw [List.mem_filter]
      refine ⟨hu, ?_⟩
      rw [hur] at hro
      simpa [AddSyscall.rule] using hro
    rw [ho] at hmem
    simp at hmem
  · have hsub := ((disable_system_calls_initial_segment cfg w ws).sublist.filter
      (fun r => r.syscall == "openat")).length_le
    rw [hmap] at hsub
    simpa using hsub
  · intro ctx hh hi hp
    rw [(disable_system_calls_pass cfg w ws ctx hh hi
      (insertions_pass_add_failed cfg w ws hp)).2.1]
    exact hmap

/-- C1 (amended) at a build with the compatibility code, a worker whose three
virtual hosts have no `xml_config_file`, and every call succeeding. -/
theorem open_rules_without_xml_config_witness :
    (∀ v ∈ [vhost none, vhost none, vhost none],
      v.perm_config.config.xml_config_file = none) ∧
    (∀ r ∈ inserted_rules (disable_system_calls cfg_all world_ok
        { vconfig := [vhost none, vhost none, vhost none] }).2, r.syscall ≠ "open") ∧
    ((inserted_rules (disable_system_calls cfg_all world_ok
        { vconfig := [vhost none, vhost none, vhost none] }).2).filter
      (fun r => r.syscall == "openat")).length ≤ 1 :=
  have h := open_rules_without_xml_config cfg_all world_ok
    { vconfig := [vhost none, vhost none, vhost none] }
    (Or.inr (by simp [vhost]))
  ⟨by simp [vhost], h.1, h.2.1⟩

/-- C2: for every build and every virtual-host list, when
`SOCKET_WRAPPER_DIR` is unset no `readlink` rule is inserted, whatever the
library answers; and when both invocations get past the handler install and
`seccomp_init` with every insertion passing, the rules inserted with
`SOCKET_WRAPPER_DIR` set are, up to order, the rules inserted with it unset
plus the one rule `readlink` with no argument predicate. -/
theorem socket_wrapper_adds_readlink (cfg : BuildConfig) (ws : worker_st)
    (w_unset : World) (hunset : w_unset.getenv "SOCKET_WRAPPER_DIR" = none) :
    (∀ r ∈ inserted_rules (disable_system_calls cfg w_unset ws).2,
      r.syscall ≠ "readlink") ∧
    (∀ (w_set : World) (c1 c2 : Nat),
      w_set.getenv "SOCKET_WRAPPER_DIR" ≠ none →
      (set_sigsys_handler cfg w_set).1 = 0 →
      w_set.seccomp_init (_SECCOMP_ERR cfg) = some c1 →
      insertions_pass cfg w_set ws →
      (set_sigsys_handler cfg w_unset).1 = 0 →
      w_unset.seccomp_init (_SECCOMP_ERR cfg) = some c2 →
      insertions_pass cfg w_unset ws →
      List.Perm (inserted_rules (disable_system_calls cfg w_set ws).2)
        (allow "readlink" :: inserted_rules (disable_system_calls cfg w_unset ws).2)) := by
  constructor
  · intro r hr hrl
    obtain ⟨u, hu, hur⟩ := inserted_rule_of_use cfg w_unset ws r hr
    have hmem : u ∈ (add_syscall_uses cfg w_unset ws).filter
        (fun u => u.name == "readlink") := by
      rw [List.mem_filter]
      refine ⟨hu, ?_⟩
      rw [hur] at hrl
      simpa [AddSyscall.rule] using hrl
    rw [add_syscall_uses_readlink cfg w_unset ws hunset] at hmem
    simp at hmem
  · intro w_set c1 c2 hset hh1 hi1 hp1 hh2 hi2 hp2
    rw [(disable_system_calls_pass cfg w_set ws c1 hh1 hi1
          (insertions_pass_add_failed cfg w_set ws hp1)).2.1,
        (disable_system_calls_pass cfg w_unset ws c2 hh2 hi2
          (insertions_pass_add_failed cfg w_unset ws hp2)).2.1]
    obtain ⟨e1, e2⟩ := add_syscall_uses_socket_wrapper cfg ws w_set w_unset hset hunset
    rw [e1]
    nth_rewrite 2 [e2]
    simp only [List.map_append, List.map_cons]
    exact List.perm_middle

/-- C2 at the build `cfg_all` and a worker with three virtual hosts, every
call succeeding in both worlds. -/
theorem socket_wrapper_adds_readlink_witness :
    world_ok.getenv "SOCKET_WRAPPER_DIR" = none ∧
    world_wrapper.getenv "SOCKET_WRAPPER_DIR" ≠ none ∧
    List.Perm (inserted_rules (disable_system_calls cfg_all world_wrapper ws_xml).2)
      (allow "readlink" :: inserted_rules (disable_system_calls cfg_all world_ok ws_xml).2) :=
  ⟨rfl, by decide,
    (socket_wrapper_adds_readlink cfg_all ws_xml world_ok rfl).2 world_wrapper 1 1
      (by decide) rfl rfl (insertions_pass_world_wrapper cfg_all ws_xml)
      rfl rfl (insertions_pass_world_ok cfg_all ws_xml)⟩

/-- C3: in a build with `ANYCONNECT_CLIENT_COMPAT`, when some virtual host of
`ws->vconfig` has `xml_config_file` set, an invocation that gets past the
handler install and `seccomp_init` with every insertion passing inserts both
the `open` rule and the `openat` rule; and the whole invocation, result and
calls, is the same for any other virtual-host list in which some host has
`xml_config_file` set, wherever it stands and however many there are. -/
theorem xml_config_adds_open_rules (cfg : BuildConfig) (w : World) (ws : worker_st)
    (hc : cfg.ANYCONNECT_CLIENT_COMPAT = true)
    (hx : ∃ v ∈ ws.vconfig, v.perm_config.config.xml_config_file ≠ none) :
    (∀ ctx, (set_sigsys_handler cfg w).1 = 0 →
      w.seccomp_init (_SECCOMP_ERR cfg) = some ctx → insertions_pass cfg w ws →
      allow "open" ∈ inserted_rules (disable_system_calls cfg w ws).2 ∧
      allow "openat" ∈ inserted_rules (disable_system_calls cfg w ws).2) ∧
    (∀ ws2 : worker_st,
      (∃ v ∈ ws2.vconfig, v.perm_config.config.xml_config_file ≠ none) →
      disable_system_calls cfg w ws2 = disable_system_calls cfg w ws) := by
  constructor
  · intro ctx hh hi hp
    rw [(disable_system_calls_pass cfg w ws ctx hh hi
      (insertions_pass_add_failed cfg w ws hp)).2.1]
    have hf := add_syscall_uses_open_xml cfg w ws hc hx
    have hmem : ∀ u ∈ [(⟨"openat", []⟩ : AddSyscall), ⟨"open", []⟩, ⟨"openat", []⟩],
        u ∈ add_syscall_uses cfg w ws := by
      intro u hu
      rw [← hf] at hu
      exact (List.mem_filter.mp hu).1
    constructor
    · exact List.mem_map.mpr ⟨⟨"open", []⟩, hmem _ (by simp), rfl⟩
    · exact List.mem_map.mpr ⟨⟨"openat", []⟩, hmem _ (by simp), rfl⟩
  · intro ws2 hx2
    have hu := add_syscall_uses_vhosts cfg w ws ws2 ⟨fun _ => hx2, fun _ => hx⟩
    unfold disable_system_calls
    rw [hu]

/-- C3 at the build `cfg_all` and a worker whose second virtual host of three
has `xml_config_file`, compared with a worker both of whose hosts have it. -/
theorem xml_config_adds_open_rules_witness :
    cfg_all.ANYCONNECT_CLIENT_COMPAT = true ∧
    (∃ v ∈ ws_xml.vconfig, v.perm_config.config.xml_config_file ≠ none) ∧
    (allow "open" ∈ inserted_rules (disable_system_calls cfg_all world_ok ws_xml).2 ∧
      allow "openat" ∈ inserted_rules (disable_system_calls cfg_all world_ok ws_xml).2) ∧
    disable_system_calls cfg_all world_ok ws_xml2
      = disable_system_calls cfg_all world_ok ws_xml :=
  have hx : ∃ v ∈ ws_xml.vconfig, v.perm_config.config.xml_config_file ≠ none :=
    ⟨vhost (some "/etc/ocserv/profile.xml"), by simp [ws_xml], by simp [vhost]⟩
  have h := xml_config_adds_open_rules cfg_all world_ok ws_xml rfl hx
  ⟨rfl, hx, h.1 1 rfl rfl (insertions_pass_world_ok cfg_all ws_xml),
    h.2 ws_xml2 ⟨vhost (some "/etc/ocserv/a.xml"), by simp [ws_xml2], by simp [vhost]⟩⟩

/-! ## The `ioctl` rule -/

/-- A rule of a use of the macro that matches an `ioctl` call is the rule of
line 215, so argument 1 of the call is `SIOCGIFMTU`. -/
theorem ioctl_rule_applies (cfg : BuildConfig) (w : World) (ws : worker_st)
    (u : AddSyscall) (hu : u ∈ add_syscall_uses cfg w ws) (c : SyscallAttempt)
    (hc : c.name = "ioctl") (ha : u.rule.applies c = true) :
    c.arg 1 = cfg.SIOCGIFMTU := by
  have hn : u.name = "ioctl" := by
    simp only [Rule.applies, AddSyscall.rule, Bool.and_eq_true, beq_iff_eq] at ha
    rw [ha.1, hc]
  have hmem : u ∈ (add_syscall_uses cfg w ws).filter (fun u => u.name == "ioctl") :=
    List.mem_filter.mpr ⟨hu, by simp [hn]⟩
  rw [add_syscall_uses_ioctl, List.mem_singleton] at hmem
  subst hmem
  simpa [Rule.applies, AddSyscall.rule, scmp_arg_cmp.holds, SCMP_A1, hc] using ha

/-- C4: for every build, environment and virtual-host list, whatever the
library answers, an `ioctl` call whose argument 1 is not `SIOCGIFMTU` matches
no inserted rule and is answered with the default action `_SECCOMP_ERR`; and
an invocation that gets past the handler install and `seccomp_init` with every
insertion passing inserts exactly one rule for `ioctl`, an allow-rule with the
single predicate "argument 1 equals `SIOCGIFMTU`", so that an `ioctl` call
matches an inserted rule if and only if its argument 1 is `SIOCGIFMTU`. -/
theorem ioctl_rule_only_siocgifmtu (cfg : BuildConfig) (w : World) (ws : worker_st) :
    (∀ c : SyscallAttempt, c.name = "ioctl" → c.arg 1 ≠ cfg.SIOCGIFMTU →
      (∀ r ∈ inserted_rules (disable_system_calls cfg w ws).2, r.applies c = false) ∧
      filter_action (_SECCOMP_ERR cfg)
        (inserted_rules (disable_system_calls cfg w ws).2) c = _SECCOMP_ERR cfg) ∧
    (∀ ctx, (set_sigsys_handler cfg w).1 = 0 →
      w.seccomp_init (_SECCOMP_ERR cfg) = some ctx → insertions_pass cfg w ws →
      (inserted_rules (disable_system_calls cfg w ws).2).filter
          (fun r => r.syscall == "ioctl")
        = [{ action := scmp_action.SCMP_ACT_ALLOW, syscall := "ioctl",
             args := [{ arg := 1, op := scmp_compare.SCMP_CMP_EQ,
                        datum_a := cfg.SIOCGIFMTU }] }] ∧
      ∀ c : SyscallAttempt, c.name = "ioctl" →
        ((∃ r ∈ inserted_rules (disable_system_calls cfg w ws).2,
            r.action = scmp_action.SCMP_ACT_ALLOW ∧ r.applies c = true)
          ↔ c.arg 1 = cfg.SIOCGIFMTU)) := by
  have key : ∀ c : SyscallAttempt, c.name = "ioctl" →
      ∀ r ∈ inserted_rules (disable_system_calls cfg w ws).2,
        r.applies c = true → c.arg 1 = cfg.SIOCGIFMTU := by
    intro c hc r hr ha
    obtain ⟨u, hu, hur⟩ := inserted_rule_of_use cfg w ws r hr
    rw [hur] at ha
    exact ioctl_rule_applies cfg w ws u hu c hc ha
  constructor
  · intro c hc hne
    have hno : ∀ r ∈ inserted_rules (disable_system_calls cfg w ws).2,
        r.applies c = false := by
      intro r hr
      cases ha : r.applies c with
      | false => rfl
      | true => exact absurd (key c hc r hr ha) hne
    refine ⟨hno, ?_⟩
    have hfind : (inserted_rules (disable_system_calls cfg w ws).2).find?
        (fun r => r.applies c) = none := by
      rw [List.find?_eq_none]
      intro r hr
      simp [hno r hr]
    simp only [filter_action, hfind]
  · intro ctx hh hi hp
    have hins := (disable_system_calls_pass cfg w ws ctx hh hi
      (insertions_pass_add_failed cfg w ws hp)).2.1
    have hfilter : (inserted_rules (disable_system_calls cfg w ws).2).filter
          (fun r => r.syscall == "ioctl")
        = [{ action := scmp_action.SCMP_ACT_ALLOW, syscall := "ioctl",
             args := [{ arg := 1, op := scmp_compare.SCMP_CMP_EQ,
                        datum_a := cfg.SIOCGIFMTU }] }] := by
      rw [hins, filter_map_rule (add_syscall_uses cfg w ws) (fun s => s == "ioctl"),
        add_syscall_uses_ioctl]
      rfl
    refine ⟨hfilter, ?_⟩
    intro c hc
    constructor
    · rintro ⟨r, hr, _, ha⟩
      exact key c hc r hr ha
    · intro harg
      have hsub : ∀ r ∈ (inserted_rules (disable_system_calls cfg w ws).2).filter
          (fun r => r.syscall == "ioctl"),
          r ∈ inserted_rules (disable_system_calls cfg w ws).2 :=
        fun r hr => (List.mem_filter.mp hr).1
      rw [hfilter] at hsub
      refine ⟨_, hsub _ (List.mem_singleton.mpr rfl), rfl, ?_⟩
      simp [Rule.applies, scmp_arg_cmp.holds, hc, harg]

/-- C4 at the build `cfg_all` (`SIOCGIFMTU = 0x8921`), every call succeeding:
the call `ioctl(_, SIOCGIFFLAGS)` (`0x8913`) is answered `ERRNO(ENOSYS)`, the
call `ioctl(_, SIOCGIFMTU)` is allowed. -/
theorem ioctl_rule_only_siocgifmtu_witness :
    filter_action (_SECCOMP_ERR cfg_all)
        (inserted_rules (disable_system_calls cfg_all world_ok ws_empty).2)
        (ioctl_call 0x8913) = scmp_action.SCMP_ACT_ERRNO 38 ∧
    ((∃ r ∈ inserted_rules (disable_system_calls cfg_all world_ok ws_empty).2,
        r.action = scmp_action.SCMP_ACT_ALLOW ∧ r.applies (ioctl_call 0x8921) = true)
      ↔ (ioctl_call 0x8921).arg 1 = cfg_all.SIOCGIFMTU) :=
  have h := ioctl_rule_only_siocgifmtu cfg_all world_ok ws_empty
  ⟨(h.1 (ioctl_call 0x8913) rfl (by decide)).2,
    (h.2 1 rfl rfl (insertions_pass_world_ok cfg_all ws_empty)).2 (ioctl_call 0x8921) rfl⟩

/-! ## Insertion results -/

/-- C5: when the handler install and `seccomp_init` succeed and every
insertion is answered with a non-negative value or with `-EDOM`, at whatever
positions the `-EDOM` answers fall, every use of the macro inserts its rule,
`seccomp_load` is called once, and the value returned is 0 when `seccomp_load`
succeeds and -1 when it fails; it is never `-EDOM` (`EDOM` being an errno
value above 1). -/
theorem edom_does_not_abort (cfg : BuildConfig) (w : World) (ws : worker_st)
    (ctx : Nat) (hh : (set_sigsys_handler cfg w).1 = 0)
    (hi : w.seccomp_init (_SECCOMP_ERR cfg) = some ctx)
    (hp : insertions_pass cfg w ws) :
    inserted_rules (disable_system_calls cfg w ws).2
      = (add_syscall_uses cfg w ws).map AddSyscall.rule ∧
    rule_add_results (disable_system_calls cfg w ws).2
      = (List.range (add_syscall_uses cfg w ws).length).map w.seccomp_rule_add ∧
    (disable_system_calls cfg w ws).2.filter Event.is_load
      = [Event.seccomp_load ctx w.seccomp_load] ∧
    (disable_system_calls cfg w ws).1 = (if w.seccomp_load < 0 then -1 else 0) ∧
    (1 < cfg.EDOM → (disable_system_calls cfg w ws).1 ≠ -cfg.EDOM) := by
  obtain ⟨h1, h2, h3, h4⟩ := disable_system_calls_pass cfg w ws ctx hh hi
    (insertions_pass_add_failed cfg w ws hp)
  refine ⟨h2, h4, h3, h1, ?_⟩
  intro hE
  rw [h1]
  split <;> omega

theorem insertions_pass_world_edom : insertions_pass cfg_all world_edom ws_empty := by
  intro i _
  show 0 ≤ (if i = 0 ∨ i = 3 ∨ i = 54 then (-33 : Int) else 0) ∨
    (if i = 0 ∨ i = 3 ∨ i = 54 then (-33 : Int) else 0) = -33
  split
  · exact Or.inr rfl
  · exact Or.inl (le_refl _)

/-- C5 at the build `cfg_all`, with `-EDOM` answered to the first, the fourth
and the last of the 55 insertions: all 55 rules are inserted and the result
is 0. -/
theorem edom_does_not_abort_witness :
    world_edom.seccomp_rule_add 0 = -cfg_all.EDOM ∧
    world_edom.seccomp_rule_add 54 = -cfg_all.EDOM ∧
    (inserted_rules (disable_system_calls cfg_all world_edom ws_empty).2).length = 55 ∧
    (disable_system_calls cfg_all world_edom ws_empty).2.filter Event.is_load
      = [Event.seccomp_load 1 0] ∧
    (disable_system_calls cfg_all world_edom ws_empty).1 = 0 :=
  have h := edom_does_not_abort cfg_all world_edom ws_empty 1 rfl rfl
    insertions_pass_world_edom
  ⟨rfl, rfl, by rw [h.1]; rfl, h.2.2.1, h.2.2.2.1⟩

/-- C6: when the handler install and `seccomp_init` succeed and the `k`-th
insertion is the first that is answered with a negative value other than
`-EDOM`, `disable_system_calls` stops there: the rules inserted are those of
the first `k + 1` uses of the macro and no later one, `seccomp_load` is not
called, and the value returned is -1. -/
theorem insertion_failure_aborts (cfg : BuildConfig) (w : World) (ws : worker_st)
    (ctx k : Nat) (hh : (set_sigsys_handler cfg w).1 = 0)
    (hi : w.seccomp_init (_SECCOMP_ERR cfg) = some ctx)
    (hk : k < (add_syscall_uses cfg w ws).length)
    (hbefore : ∀ i, i < k → 0 ≤ w.seccomp_rule_add i ∨ w.seccomp_rule_add i = -cfg.EDOM)
    (hfail : w.seccomp_rule_add k < 0 ∧ w.seccomp_rule_add k ≠ -cfg.EDOM) :
    inserted_rules (disable_system_calls cfg w ws).2
      = ((add_syscall_uses cfg w ws).take (k + 1)).map AddSyscall.rule ∧
    rule_add_results (disable_system_calls cfg w ws).2
      = (List.range (k + 1)).map w.seccomp_rule_add ∧
    (disable_system_calls cfg w ws).2.filter Event.is_load = [] ∧
    (disable_system_calls cfg w ws).1 = -1 := by
  obtain ⟨h1, h2, h3, h4⟩ := disable_system_calls_fail_at cfg w ws ctx k hh hi hk
    (fun i hi => (add_failed_eq_false_iff cfg _).mpr (hbefore i hi))
    ((add_failed_eq_true_iff cfg _).mpr hfail)
  exact ⟨h2, h3, h4, h1⟩

/-- C6 at the build `cfg_all`, where the second insertion is answered `-EDOM`
and the fourth `-EINVAL`: four rules are inserted, `seccomp_load` is not
called, the result is -1. -/
theorem insertion_failure_aborts_witness :
    (world_einval.seccomp_rule_add 3 < 0 ∧
      world_einval.seccomp_rule_add 3 ≠ -cfg_all.EDOM) ∧
    inserted_rules (disable_system_calls cfg_all world_einval ws_empty).2
      = [allow "getcwd", allow "lstat", allow "time", allow "gettimeofday"] ∧
    (disable_system_calls cfg_all world_einval ws_empty).2.filter Event.is_load = [] ∧
    (disable_system_calls cfg_all world_einval ws_empty).1 = -1 :=
  have hf : world_einval.seccomp_rule_add 3 < 0 ∧
      world_einval.seccomp_rule_add 3 ≠ -cfg_all.EDOM := by decide
  have h := insertion_failure_aborts cfg_all world_einval ws_empty 1 3 rfl rfl
    (by decide) (by decide) hf
  ⟨hf, h.1, h.2.2.1, h.2.2.2⟩

/-! ## Excluded calls and the default action -/

theorem _SECCOMP_ERR_ne_allow (cfg : BuildConfig) :
    _SECCOMP_ERR cfg ≠ scmp_action.SCMP_ACT_ALLOW := by
  unfold _SECCOMP_ERR
  split <;> simp

theorem set_sigsys_handler_no_init (cfg : BuildConfig) (w : World) (a : scmp_action)
    (c : Option Nat) : Event.seccomp_init a c ∉ (set_sigsys_handler cfg w).2 := by
  unfold set_sigsys_handler
  split <;> simp

theorem add_syscalls_no_init (cfg : BuildConfig) (w : World) (ctx : Nat)
    (l : List AddSyscall) (n : Nat) (a : scmp_action) (c : Option Nat) :
    Event.seccomp_init a c ∉ (add_syscalls cfg w ctx n l).1 := by
  intro h
  rcases add_syscalls_events cfg w ctx l n _ h with ⟨r, v, he⟩ | ⟨p, m, he⟩ <;> cases he

/-- C7: for every build, environment and virtual-host list, whatever the
library answers, every rule `disable_system_calls` inserts has action
`SCMP_ACT_ALLOW` and none is for `mkdir` or `mkdirat`; every `seccomp_init`
call is made with `_SECCOMP_ERR`, which is `SCMP_ACT_TRAP` with
`USE_SECCOMP_TRAP` and `SCMP_ACT_ERRNO(ENOSYS)` without; so a `mkdir` or
`mkdirat` call is answered by the inserted rules with `_SECCOMP_ERR`, never
allowed; and a result of 0 means that the filter made with that default
action was loaded. -/
theorem mkdir_gets_default_action (cfg : BuildConfig) (w : World) (ws : worker_st) :
    (∀ r ∈ inserted_rules (disable_system_calls cfg w ws).2,
      r.action = scmp_action.SCMP_ACT_ALLOW ∧ r.syscall ≠ "mkdir" ∧
      r.syscall ≠ "mkdirat") ∧
    (∀ a c, Event.seccomp_init a c ∈ (disable_system_calls cfg w ws).2 →
      a = _SECCOMP_ERR cfg) ∧
    (_SECCOMP_ERR cfg = if cfg.USE_SECCOMP_TRAP then scmp_action.SCMP_ACT_TRAP
      else scmp_action.SCMP_ACT_ERRNO cfg.ENOSYS) ∧
    (∀ c : SyscallAttempt, c.name = "mkdir" ∨ c.name = "mkdirat" →
      filter_action (_SECCOMP_ERR cfg)
        (inserted_rules (disable_system_calls cfg w ws).2) c = _SECCOMP_ERR cfg ∧
      filter_action (_SECCOMP_ERR cfg)
        (inserted_rules (disable_system_calls cfg w ws).2) c
          ≠ scmp_action.SCMP_ACT_ALLOW) ∧
    ((disable_system_calls cfg w ws).1 = 0 →
      ∃ ctx, Event.seccomp_init (_SECCOMP_ERR cfg) (some ctx)
          ∈ (disable_system_calls cfg w ws).2 ∧
        Event.seccomp_load ctx w.seccomp_load ∈ (disable_system_calls cfg w ws).2 ∧
        0 ≤ w.seccomp_load) := by
  have hrules : ∀ r ∈ inserted_rules (disable_system_calls cfg w ws).2,
      r.action = scmp_action.SCMP_ACT_ALLOW ∧ r.syscall ≠ "mkdir" ∧
      r.syscall ≠ "mkdirat" := by
    intro r hr
    obtain ⟨u, hu, hur⟩ := inserted_rule_of_use cfg w ws r hr
    have hnot : ¬ (u.name = "mkdir" ∨ u.name = "mkdirat") := by
      intro hn
      have hmem : u ∈ (add_syscall_uses cfg w ws).filter
          (fun u => u.name == "mkdir" || u.name == "mkdirat") :=
        List.mem_filter.mpr ⟨hu, by simpa using hn⟩
      rw [add_syscall_uses_mkdir] at hmem
      simp at hmem
    rw [hur]
    exact ⟨rfl, fun h => hnot (Or.inl h), fun h => hnot (Or.inr h)⟩
  refine ⟨hrules, ?_, rfl, ?_, ?_⟩
  · intro a c hmem
    have hs := set_sigsys_handler_no_init cfg w a c
    rcases disable_system_calls_cases cfg w ws with hh | ⟨hh, hi⟩ | ⟨ctx, hh, hi, ha, _⟩ |
        ⟨ctx, hh, hi, ha, _⟩
    · rw [disable_system_calls_handler_failed cfg w ws hh] at hmem
      simp [hs] at hmem
    · rw [disable_system_calls_init_failed cfg w ws hh hi] at hmem
      simp [hs] at hmem
      exact hmem.1
    · have hn := add_syscalls_no_init cfg w ctx (add_syscall_uses cfg w ws) 0 a c
      rw [disable_system_calls_add_failed cfg w ws ctx _ hh hi ha] at hmem
      simp [hs, hn] at hmem
      exact hmem.1
    · have hn := add_syscalls_no_init cfg w ctx (add_syscall_uses cfg w ws) 0 a c
      rw [disable_system_calls_loaded cfg w ws ctx hh hi ha] at hmem
      simp [hs, hn] at hmem
      exact hmem.1
  · intro c hc
    have hfind : (inserted_rules (disable_system_calls cfg w ws).2).find?
        (fun r => r.applies c) = none := by
      rw [List.find?_eq_none]
      intro r hr ha
      simp only [Rule.applies, Bool.and_eq_true, beq_iff_eq] at ha
      obtain ⟨_, h1, h2⟩ := hrules r hr
      rcases hc with hc | hc
      · exact h1 (ha.1.trans hc)
      · exact h2 (ha.1.trans hc)
    have hfa : filter_action (_SECCOMP_ERR cfg)
        (inserted_rules (disable_system_calls cfg w ws).2) c = _SECCOMP_ERR cfg := by
      simp only [filter_action, hfind]
    exact ⟨hfa, by rw [hfa]; exact _SECCOMP_ERR_ne_allow cfg⟩
  · intro hret
    rcases disable_system_calls_cases cfg w ws with hh | ⟨hh, hi⟩ | ⟨ctx, hh, hi, ha, _⟩ |
        ⟨ctx, hh, hi, ha, _⟩
    · rw [disable_system_calls_handler_failed cfg w ws hh] at hret
      simp at hret
    · rw [disable_system_calls_init_failed cfg w ws hh hi] at hret
      simp at hret
    · rw [disable_system_calls_add_failed cfg w ws ctx _ hh hi ha] at hret
      simp at hret
    · rw [disable_system_calls_loaded cfg w ws ctx hh hi ha] at hret ⊢
      have hl : ¬ w.seccomp_load < 0 := by
        intro hl
        simp [hl] at hret
      refine ⟨ctx, by simp, by simp, by omega⟩

/-- C7 at the build `cfg_all` (no `USE_SECCOMP_TRAP`, `ENOSYS = 38`), every
call succeeding: the result is 0 and `mkdir` is answered `ERRNO(ENOSYS)`. -/
theorem mkdir_gets_default_action_witness :
    (disable_system_calls cfg_all world_ok ws_empty).1 = 0 ∧
    filter_action (_SECCOMP_ERR cfg_all)
      (inserted_rules (disable_system_calls cfg_all world_ok ws_empty).2)
      { name := "mkdir", arg := fun _ => 0 } = scmp_action.SCMP_ACT_ERRNO 38 :=
  ⟨by decide,
    ((mkdir_gets_default_action cfg_all world_ok ws_empty).2.2.2.1
      { name := "mkdir", arg := fun _ => 0 } (Or.inl rfl)).1⟩

/-! ## Feature-detected variants -/

/-- C8, as stated, fails: in a build that defines `SYS_clock_gettime64` and
`__NR_clock_gettime64` but not `HAVE_CLOCK_GETTIME`, with every call
succeeding, no `clock_gettime64` rule is inserted (the test of line 124 is
nested in the block of line 122). -/
theorem clock_gettime64_needs_have_clock_gettime :
    cfg_no_clock_gettime.SYS_clock_gettime64 = true ∧
    cfg_no_clock_gettime.NR_clock_gettime64 = true ∧
    (disable_system_calls cfg_no_clock_gettime world_ok ws_empty).1 = 0 ∧
    ∀ r ∈ inserted_rules (disable_system_calls cfg_no_clock_gettime world_ok ws_empty).2,
      r.syscall ≠ "clock_gettime64" := by
  refine ⟨rfl, rfl, ?_, ?_⟩
  · decide
  · decide

theorem allow_mem_map_rule (l : List AddSyscall) (n : String) :
    allow n ∈ l.map AddSyscall.rule ↔ (⟨n, []⟩ : AddSyscall) ∈ l := by
  rw [List.mem_map]
  constructor
  · rintro ⟨u, hu, hur⟩
    obtain ⟨name, args⟩ := u
    simp only [AddSyscall.rule, allow, Rule.mk.injEq, true_and] at hur
    rw [← hur.1, ← hur.2]
    exact hu
  · intro h
    exact ⟨_, h, rfl⟩

/-- C8 (amended): when the handler install and `seccomp_init` succeed and every
insertion passes, the rule of each feature-detected variant is inserted
exactly when the preprocessor conditions around its use hold: `clock_gettime`
with `HAVE_CLOCK_GETTIME`; `clock_gettime64` with `HAVE_CLOCK_GETTIME` and one
of `SYS_clock_gettime64`, `__NR_clock_gettime64`; `clock_nanosleep64`,
`getrandom`, `fcntl64`, `fstat64` each with one of its own `SYS_` and `__NR_`
symbols, independently of every other symbol. -/
theorem feature_variants_inserted (cfg : BuildConfig) (w : World) (ws : worker_st)
    (ctx : Nat) (hh : (set_sigsys_handler cfg w).1 = 0)
    (hi : w.seccomp_init (_SECCOMP_ERR cfg) = some ctx)
    (hp : insertions_pass cfg w ws) :
    (allow "clock_gettime" ∈ inserted_rules (disable_system_calls cfg w ws).2 ↔
      cfg.HAVE_CLOCK_GETTIME = true) ∧
    (allow "clock_gettime64" ∈ inserted_rules (disable_system_calls cfg w ws).2 ↔
      cfg.HAVE_CLOCK_GETTIME = true ∧
        (cfg.SYS_clock_gettime64 = true ∨ cfg.NR_clock_gettime64 = true)) ∧
    (allow "clock_nanosleep64" ∈ inserted_rules (disable_system_calls cfg w ws).2 ↔
      (cfg.SYS_clock_nanosleep64 = true ∨ cfg.NR_clock_nanosleep64 = true)) ∧
    (allow "getrandom" ∈ inserted_rules (disable_system_calls cfg w ws).2 ↔
      (cfg.SYS_getrandom = true ∨ cfg.NR_getrandom = true)) ∧
    (allow "fcntl64" ∈ inserted_rules (disable_system_calls cfg w ws).2 ↔
      (cfg.SYS_fcntl64 = true ∨ cfg.NR_fcntl64 = true)) ∧
    (allow "fstat64" ∈ inserted_rules (disable_system_calls cfg w ws).2 ↔
      (cfg.SYS_fstat64 = true ∨ cfg.NR_fstat64 = true)) := by
  rw [(disable_system_calls_pass cfg w ws ctx hh hi
    (insertions_pass_add_failed cfg w ws hp)).2.1]
  simp only [allow_mem_map_rule]
  rcases xml_config_syscalls_cases ws.vconfig with hx | hx <;>
    simp [add_syscall_uses, hx]

/-- C8 (amended) at the build without `HAVE_CLOCK_GETTIME` that defines all the
other symbols, every call succeeding: `getrandom` and `fstat64` are inserted,
`clock_gettime64` is not. -/
theorem feature_variants_inserted_witness :
    allow "getrandom" ∈
      inserted_rules (disable_system_calls cfg_no_clock_gettime world_ok ws_empty).2 ∧
    allow "fstat64" ∈
      inserted_rules (disable_system_calls cfg_no_clock_gettime world_ok ws_empty).2 ∧
    allow "clock_gettime64" ∉
      inserted_rules (disable_system_calls cfg_no_clock_gettime world_ok ws_empty).2 :=
  have h := feature_variants_inserted cfg_no_clock_gettime world_ok ws_empty 1 rfl rfl
    (insertions_pass_world_ok cfg_no_clock_gettime ws_empty)
  ⟨h.2.2.2.1.mpr (Or.inl rfl), h.2.2.2.2.2.mpr (Or.inl rfl),
    fun hm => absurd (h.2.1.mp hm).1 (by decide)⟩

/-! ## The value returned -/

/-- C9: in a `HAVE_LIBSECCOMP` build, whatever the library answers,
`disable_system_calls` returns 0 or -1; it returns 0 if and only if
`set_sigsys_handler` returned 0, `seccomp_init` returned a context, every
`seccomp_rule_add` call made returned a non-negative value or `-EDOM`, and
`seccomp_load` answers a non-negative value; and when the handler result is
not 0 or the context is `NULL` it returns -1 without inserting a rule. -/
theorem result_is_success_or_failure (HAVE_LIBSECCOMP : Bool) (cfg : BuildConfig)
    (w : World) (ws : worker_st) (hl : HAVE_LIBSECCOMP = true) :
    ((disable_system_calls_build HAVE_LIBSECCOMP cfg w ws).1 = 0 ∨
      (disable_system_calls_build HAVE_LIBSECCOMP cfg w ws).1 = -1) ∧
    ((disable_system_calls_build HAVE_LIBSECCOMP cfg w ws).1 = 0 ↔
      (set_sigsys_handler cfg w).1 = 0 ∧
      w.seccomp_init (_SECCOMP_ERR cfg) ≠ none ∧
      (∀ v ∈ rule_add_results (disable_system_calls_build HAVE_LIBSECCOMP cfg w ws).2,
        0 ≤ v ∨ v = -cfg.EDOM) ∧
      0 ≤ w.seccomp_load) ∧
    ((set_sigsys_handler cfg w).1 ≠ 0 ∨ w.seccomp_init (_SECCOMP_ERR cfg) = none →
      (disable_system_calls_build HAVE_LIBSECCOMP cfg w ws).1 = -1 ∧
      inserted_rules (disable_system_calls_build HAVE_LIBSECCOMP cfg w ws).2 = []) := by
  subst hl
  simp only [disable_system_calls_build, if_true]
  have hs := set_sigsys_handler_rules cfg w
  rcases disable_system_calls_cases cfg w ws with hh | ⟨hh, hi⟩ | ⟨ctx, hh, hi, ha, v, hv, hvf⟩ |
      ⟨ctx, hh, hi, ha, hall⟩
  · rw [disable_system_calls_handler_failed cfg w ws hh]
    refine ⟨Or.inr rfl, ⟨fun h => by simp at h, fun h => absurd h.1 hh⟩, fun _ => ⟨rfl, ?_⟩⟩
    simp only [inserted_rules_append, hs.1]
    simp [inserted_rules, Event.rule?]
  · rw [disable_system_calls_init_failed cfg w ws hh hi]
    refine ⟨Or.inr rfl, ⟨fun h => by simp at h, fun h => absurd hi h.2.1⟩,
      fun _ => ⟨rfl, ?_⟩⟩
    simp only [inserted_rules_append, hs.1]
    simp [inserted_rules, Event.rule?]
  · rw [disable_system_calls_add_failed cfg w ws ctx _ hh hi ha]
    refine ⟨Or.inr rfl, ⟨fun h => by simp at h, fun h => ?_⟩, fun h => ?_⟩
    · have hv2 := h.2.2.1 v (by
        simp only [rule_add_results_append]
        simp [hv])
      rw [← add_failed_eq_false_iff, hvf] at hv2
      cases hv2
    · rcases h with h | h
      · exact absurd hh h
      · rw [hi] at h
        cases h
  · rw [disable_system_calls_loaded cfg w ws ctx hh hi ha]
    refine ⟨?_, ⟨fun h => ?_, fun h => ?_⟩, fun h => ?_⟩
    · by_cases hl : w.seccomp_load < 0 <;> simp [hl]
    · refine ⟨hh, by simp [hi], ?_, ?_⟩
      · intro v hv
        simp only [rule_add_results_append, hs.2.1] at hv
        have hv2 : v ∈ rule_add_results
            (add_syscalls cfg w ctx 0 (add_syscall_uses cfg w ws)).1 := by
          by_cases hl : w.seccomp_load < 0 <;>
            simpa [rule_add_results, Event.rule_add_ret?, hl] using hv
        exact (add_failed_eq_false_iff cfg v).mp (hall v hv2)
      · by_cases hl : w.seccomp_load < 0
        · simp [hl] at h
        · omega
    · have hl : ¬ w.seccomp_load < 0 := by omega
      simp [hl]
    · rcases h with h | h
      · exact absurd hh h
      · rw [hi] at h
        cases h

/-- C9 at the build `cfg_all`: success when every call succeeds, -1 when the
fourth insertion is answered `-EINVAL`. -/
theorem result_is_success_or_failure_witness :
    (disable_system_calls_build true cfg_all world_ok ws_empty).1 = 0 ∧
    (disable_system_calls_build true cfg_all world_einval ws_empty).1 = -1 ∧
    ((disable_system_calls_build true cfg_all world_einval ws_empty).1 = 0 ∨
      (disable_system_calls_build true cfg_all world_einval ws_empty).1 = -1) :=
  ⟨by decide, by decide,
    (result_is_success_or_failure true cfg_all world_einval ws_empty rfl).1⟩

/-! ## Order of the library calls -/

theorem getLast?_append_singleton {α : Type} (l : List α) (a : α) :
    (l ++ [a]).getLast? = some a := by
  simp

/-- C10: for every build and whatever the library answers, in the calls of one
invocation of `disable_system_calls`: when the handler install succeeded and
`seccomp_init` returned a context, `seccomp_release` is called exactly once,
on that context, and it is the last call; when the handler install failed or
`seccomp_init` returned `NULL`, `seccomp_release` is not called; and
`seccomp_load` is called at most once. -/
theorem release_once_and_last (cfg : BuildConfig) (w : World) (ws : worker_st) :
    (∀ ctx, (set_sigsys_handler cfg w).1 = 0 →
      w.seccomp_init (_SECCOMP_ERR cfg) = some ctx →
      (disable_system_calls cfg w ws).2.filter Event.is_release
        = [Event.seccomp_release ctx] ∧
      (disable_system_calls cfg w ws).2.getLast? = some (Event.seccomp_release ctx)) ∧
    ((set_sigsys_handler cfg w).1 ≠ 0 ∨ w.seccomp_init (_SECCOMP_ERR cfg) = none →
      (disable_system_calls cfg w ws).2.filter Event.is_release = []) ∧
    ((disable_system_calls cfg w ws).2.filter Event.is_load).length ≤ 1 := by
  have hs := set_sigsys_handler_rules cfg w
  rcases disable_system_calls_cases cfg w ws with hh | ⟨hh, hi⟩ | ⟨ctx, hh, hi, ha, _⟩ |
      ⟨ctx, hh, hi, ha, _⟩
  · rw [disable_system_calls_handler_failed cfg w ws hh]
    refine ⟨fun c h => absurd h hh, fun _ => ?_, ?_⟩
    · simp only [List.filter_append, hs.2.2.2]
      simp [Event.is_release]
    · simp only [List.filter_append, hs.2.2.1]
      simp [Event.is_load]
  · rw [disable_system_calls_init_failed cfg w ws hh hi]
    refine ⟨fun c _ h => ?_, fun _ => ?_, ?_⟩
    · rw [hi] at h
      cases h
    · simp only [List.filter_append, hs.2.2.2]
      simp [Event.is_release]
    · simp only [List.filter_append, hs.2.2.1]
      simp [Event.is_load]
  · have hnl := add_syscalls_no_load cfg w ctx (add_syscall_uses cfg w ws) 0
    have hnr := add_syscalls_no_release cfg w ctx (add_syscall_uses cfg w ws) 0
    rw [disable_system_calls_add_failed cfg w ws ctx _ hh hi ha]
    refine ⟨fun c _ h => ?_, fun h => ?_, ?_⟩
    · rw [hi] at h
      cases h
      refine ⟨?_, getLast?_append_singleton _ _⟩
      simp only [List.filter_append, hs.2.2.2, hnr]
      simp [Event.is_release]
    · rcases h with h | h
      · exact absurd hh h
      · rw [hi] at h
        cases h
    · simp only [List.filter_append, hs.2.2.1, hnl]
      simp [Event.is_load]
  · have hnl := add_syscalls_no_load cfg w ctx (add_syscall_uses cfg w ws) 0
    have hnr := add_syscalls_no_release cfg w ctx (add_syscall_uses cfg w ws) 0
    rw [disable_system_calls_loaded cfg w ws ctx hh hi ha]
    refine ⟨fun c _ h => ?_, fun h => ?_, ?_⟩
    · rw [hi] at h
      cases h
      refine ⟨?_, getLast?_append_singleton _ _⟩
      simp only [List.filter_append, hs.2.2.2, hnr]
      by_cases hl : w.seccomp_load < 0 <;> simp [Event.is_release, hl]
    · rcases h with h | h
      · exact absurd hh h
      · rw [hi] at h
        cases h
    · simp only [List.filter_append, hs.2.2.1, hnl]
      by_cases hl : w.seccomp_load < 0 <;> simp [Event.is_load, hl]

/-- C10 at the build `cfg_all`, in a run that succeeds and in a run whose
fourth insertion fails: one `seccomp_release` call, on the context, last. -/
theorem release_once_and_last_witness :
    ((disable_system_calls cfg_all world_ok ws_empty).2.filter Event.is_release
        = [Event.seccomp_release 1] ∧
      (disable_system_calls cfg_all world_ok ws_empty).2.getLast?
        = some (Event.seccomp_release 1)) ∧
    ((disable_system_calls cfg_all world_einval ws_empty).2.filter Event.is_release
        = [Event.seccomp_release 1] ∧
      (disable_system_calls cfg_all world_einval ws_empty).2.getLast?
        = some (Event.seccomp_release 1)) :=
  ⟨(release_once_and_last cfg_all world_ok ws_empty).1 1 rfl rfl,
    (release_once_and_last cfg_all world_einval ws_empty).1 1 rfl rfl⟩

end Ocserv
